import Mathlib

/-!
Shallow embedding of the MonoKey vault engine (a TypeScript credential
manager) and proofs about its specification claims.

JavaScript strings are modelled as lists of characters (`Str`).  The
external `crypto-js` primitives (PBKDF2, AES-CBC, SHA-256) are not part of
the repository; they are modelled as an abstract interface `CryptoJSLib`
whose contractual behaviour (round-trip, wrong-key rejection) appears as
explicit hypotheses where a claim depends on it.  Everything else —
envelope construction and parsing, merge-on-update, per-record decode
loops, format and ownership gates, password generation — is translated
directly from the source.
-/

namespace Monokey

/-- A JavaScript string, modelled as its list of characters. -/
abbrev Str := List Char

/-- Abstract interface to the external `crypto-js` library.
`pbkdf2 password salt` models `CryptoJS.PBKDF2(password, salt, {keySize: 256/32,
iterations: 10000}).toString()`; `aesEncrypt data key iv` models
`CryptoJS.AES.encrypt(data, key, {iv, mode: CBC, padding: Pkcs7}).toString()`;
`aesDecrypt ct key iv` models `CryptoJS.AES.decrypt(...).toString(Utf8)`,
with `none` standing for the exception thrown on invalid padding / malformed
UTF-8; `sha256` models `CryptoJS.SHA256(s).toString()`.  The IV is carried as
its hex serialization, so `CryptoJS.enc.Hex.parse` is the identity here. -/
structure CryptoJSLib where
  pbkdf2 : Str → Str → Str
  aesEncrypt : Str → Str → Str → Str
  aesDecrypt : Str → Str → Str → Option Str
  sha256 : Str → Str

/-- Accumulator-passing core of JavaScript `String.prototype.split` with a
single-character separator. -/
def splitAux (sep : Char) : Str → Str → List Str
  | [], acc => [acc.reverse]
  | c :: cs, acc =>
      if c = sep then acc.reverse :: splitAux sep cs []
      else splitAux sep cs (c :: acc)

/-- JavaScript `s.split(sep)` for a one-character separator. -/
def jsSplit (s : Str) (sep : Char) : List Str :=
  splitAux sep s []

theorem splitAux_of_not_mem (sep : Char) (s : Str) :
    ∀ acc : Str, sep ∉ s → splitAux sep s acc = [acc.reverse ++ s] := by
  induction s with
  | nil => intro acc _; simp [splitAux]
  | cons c cs ih =>
      intro acc h
      have hc : c ≠ sep := fun he => h (he ▸ List.mem_cons_self c cs)
      have hcs : sep ∉ cs := fun hm => h (List.mem_cons_of_mem c hm)
      simp [splitAux, hc, ih (c :: acc) hcs]

theorem splitAux_append (sep : Char) (s : Str) :
    ∀ (t acc : Str), sep ∉ s →
      splitAux sep (s ++ sep :: t) acc = (acc.reverse ++ s) :: splitAux sep t [] := by
  induction s with
  | nil => intro t acc _; simp [splitAux]
  | cons c cs ih =>
      intro t acc h
      have hc : c ≠ sep := fun he => h (he ▸ List.mem_cons_self c cs)
      have hcs : sep ∉ cs := fun hm => h (List.mem_cons_of_mem c hm)
      simp [splitAux, hc, ih t (c :: acc) hcs]

theorem jsSplit_append (s t : Str) (sep : Char) (h : sep ∉ s) :
    jsSplit (s ++ sep :: t) sep = s :: jsSplit t sep := by
  simpa [jsSplit] using splitAux_append sep s t [] h

theorem jsSplit_of_not_mem (s : Str) (sep : Char) (h : sep ∉ s) :
    jsSplit s sep = [s] := by
  simpa [jsSplit] using splitAux_of_not_mem sep s [] h

theorem jsSplit_colon_triple (salt iv ct : Str)
    (h1 : ':' ∉ salt) (h2 : ':' ∉ iv) (h3 : ':' ∉ ct) :
    jsSplit (salt ++ ':' :: (iv ++ ':' :: ct)) ':' = [salt, iv, ct] := by
  rw [jsSplit_append salt (iv ++ ':' :: ct) ':' h1,
      jsSplit_append iv ct ':' h2, jsSplit_of_not_mem ct ':' h3]

/-- `CryptoUtils.deriveKey(monoPassword, salt)` from `src/utils/crypto.ts`:
`CryptoJS.PBKDF2(monoPassword, salt, {keySize: 256/32, iterations: 10000}).toString()`. -/
def CryptoUtils.deriveKey (lib : CryptoJSLib) (monoPassword salt : Str) : Str :=
  lib.pbkdf2 monoPassword salt

/-- `CryptoUtils.encrypt(data, monoPassword)`.  The randomly sampled salt and
IV (`CryptoJS.lib.WordArray.random(128/8)`) are made explicit parameters;
the function returns `salt + ':' + iv.toString() + ':' + encrypted.toString()`. -/
def CryptoUtils.encrypt (lib : CryptoJSLib) (salt iv : Str)
    (data monoPassword : Str) : Str :=
  salt ++ ':' ::
    (iv ++ ':' :: lib.aesEncrypt data (CryptoUtils.deriveKey lib monoPassword salt) iv)

/-- `CryptoUtils.decrypt(encryptedData, monoPassword)`: splits on `':'`,
requires exactly three parts, re-derives the key from the embedded salt and
decrypts.  Every failure (wrong part count, invalid padding, malformed UTF-8)
is caught and rethrown as the single error
`Failed to decrypt data. Invalid MonoPassword or corrupted data.`, modelled
as `none`. -/
def CryptoUtils.decrypt (lib : CryptoJSLib) (encryptedData monoPassword : Str) :
    Option Str :=
  match jsSplit encryptedData ':' with
  | [salt, ivString, encrypted] =>
      lib.aesDecrypt encrypted (CryptoUtils.deriveKey lib monoPassword salt) ivString
  | _ => none

/-- Core round-trip lemma: if the AES layer inverts its own encryption at the
derived key then `decrypt` inverts `encrypt`. -/
theorem decrypt_encrypt (lib : CryptoJSLib) (P S salt iv : Str)
    (h1 : ':' ∉ salt) (h2 : ':' ∉ iv)
    (h3 : ':' ∉ lib.aesEncrypt P (lib.pbkdf2 S salt) iv)
    (hrt : lib.aesDecrypt (lib.aesEncrypt P (lib.pbkdf2 S salt) iv)
            (lib.pbkdf2 S salt) iv = some P) :
    CryptoUtils.decrypt lib (CryptoUtils.encrypt lib salt iv P S) S = some P := by
  unfold CryptoUtils.decrypt CryptoUtils.encrypt CryptoUtils.deriveKey
  rw [jsSplit_colon_triple salt iv _ h1 h2 h3]
  exact hrt

/-- Concrete instantiation of the library interface used to witness the
conditional theorems: the key is `password ++ salt`, the "ciphertext" is the
key followed by `'#'` and the data, and decryption succeeds only when the
stored key matches. -/
def toyLib : CryptoJSLib where
  pbkdf2 := fun p s => p ++ s
  aesEncrypt := fun d k _ => k ++ '#' :: d
  aesDecrypt := fun c k _ =>
    if c.take (k.length + 1) = k ++ ['#'] then some (c.drop (k.length + 1)) else none
  sha256 := fun s => s

/-- C2: for every plaintext `P` and secret `S` (with the freshly sampled salt
and IV made explicit, and the crypto-js AES layer assumed to invert its own
encryption under the same derived key, the salt/IV/ciphertext serializations
being colon-free as hex/base64 output is),
`decrypt (encrypt P S) S = P`. -/
theorem encrypt_decrypt_roundtrip (lib : CryptoJSLib) (P S salt iv : Str)
    (h1 : ':' ∉ salt) (h2 : ':' ∉ iv)
    (h3 : ':' ∉ lib.aesEncrypt P (lib.pbkdf2 S salt) iv)
    (hrt : lib.aesDecrypt (lib.aesEncrypt P (lib.pbkdf2 S salt) iv)
            (lib.pbkdf2 S salt) iv = some P) :
    CryptoUtils.decrypt lib (CryptoUtils.encrypt lib salt iv P S) S = some P :=
  decrypt_encrypt lib P S salt iv h1 h2 h3 hrt

/-- Witness for C2 at concrete inputs. -/
theorem encrypt_decrypt_roundtrip_witness :
    CryptoUtils.decrypt toyLib
      (CryptoUtils.encrypt toyLib ['s'] ['i'] ['p'] ['k']) ['k'] = some ['p'] :=
  encrypt_decrypt_roundtrip toyLib ['p'] ['k'] ['s'] ['i']
    (by decide) (by decide) (by decide) (by decide)

/-- C3: decrypting `encrypt(P, S1)` under a different secret `S2` throws the
(single) `DecryptionError` rather than returning a string.  The crypto-js AES
layer's rejection of the mismatched derived key is the explicit hypothesis
`hwk` (derived keys differ per `hkey` since PBKDF2 is collision-free in
practice). -/
theorem decrypt_wrong_secret_fails (lib : CryptoJSLib) (P S1 S2 salt iv : Str)
    (hne : S1 ≠ S2)
    (hkey : lib.pbkdf2 S1 salt ≠ lib.pbkdf2 S2 salt)
    (h1 : ':' ∉ salt) (h2 : ':' ∉ iv)
    (h3 : ':' ∉ lib.aesEncrypt P (lib.pbkdf2 S1 salt) iv)
    (hwk : lib.aesDecrypt (lib.aesEncrypt P (lib.pbkdf2 S1 salt) iv)
            (lib.pbkdf2 S2 salt) iv = none) :
    CryptoUtils.decrypt lib (CryptoUtils.encrypt lib salt iv P S1) S2 = none := by
  unfold CryptoUtils.decrypt CryptoUtils.encrypt CryptoUtils.deriveKey
  rw [jsSplit_colon_triple salt iv _ h1 h2 h3]
  exact hwk

/-- Witness for C3 at concrete inputs. -/
theorem decrypt_wrong_secret_fails_witness :
    CryptoUtils.decrypt toyLib
      (CryptoUtils.encrypt toyLib ['s'] ['i'] ['p'] ['a']) ['b'] = none :=
  decrypt_wrong_secret_fails toyLib ['p'] ['a'] ['b'] ['s'] ['i']
    (by decide) (by decide) (by decide) (by decide) (by decide) (by decide)

/-- C7: the envelope string determines the salt it starts with, so two calls
of `encrypt` whose sampled salts differ return different envelope strings
(salts are hex, hence colon-free). -/
theorem encrypt_fresh_salt_differs (lib : CryptoJSLib) (P S salt1 iv1 salt2 iv2 : Str)
    (h1 : ':' ∉ salt1) (h2 : ':' ∉ salt2) (hne : salt1 ≠ salt2) :
    CryptoUtils.encrypt lib salt1 iv1 P S ≠ CryptoUtils.encrypt lib salt2 iv2 P S := by
  intro heq
  have h := congrArg (fun s => jsSplit s ':') heq
  simp only [CryptoUtils.encrypt] at h
  rw [jsSplit_append salt1 _ ':' h1, jsSplit_append salt2 _ ':' h2] at h
  exact hne (List.cons.injEq .. ▸ h).1

/-- Witness for C7 at concrete inputs. -/
theorem encrypt_fresh_salt_differs_witness :
    CryptoUtils.encrypt toyLib ['s'] ['i'] ['p'] ['k'] ≠
      CryptoUtils.encrypt toyLib ['t'] ['i'] ['p'] ['k'] :=
  encrypt_fresh_salt_differs toyLib ['p'] ['k'] ['s'] ['i'] ['t'] ['i']
    (by decide) (by decide) (by decide)

/-- Options record of `CryptoUtils.generatePassword`. -/
structure PasswordOptions where
  length : Nat
  includeUppercase : Bool
  includeLowercase : Bool
  includeNumbers : Bool
  includeSpecialChars : Bool

def lowercaseChars : Str := "abcdefghijklmnopqrstuvwxyz".data

def uppercaseChars : Str := "ABCDEFGHIJKLMNOPQRSTUVWXYZ".data

def numberChars : Str := "0123456789".data

def specialChars : Str := "!@#$%^&*()_+-=[]\x7b\x7d|;:,.<>?".data

/-- The `charset` string built by `CryptoUtils.generatePassword`: character
classes appended in source order (lowercase, uppercase, numbers, specials),
each guarded by its flag. -/
def charsetOf (o : PasswordOptions) : Str :=
  (if o.includeLowercase then lowercaseChars else [])
    ++ (if o.includeUppercase then uppercaseChars else [])
    ++ (if o.includeNumbers then numberChars else [])
    ++ (if o.includeSpecialChars then specialChars else [])

/-- `CryptoUtils.generatePassword(options)`.  The random draw
`Math.floor(Math.random() * charset.length)` — always in
`[0, charset.length)` — is modelled as `randoms i % charset.length` for an
arbitrary sequence `randoms`; `charAt` at an in-range index is `getD`. -/
def CryptoUtils.generatePassword (randoms : Nat → Nat) (o : PasswordOptions) : Str :=
  if charsetOf o = [] then []
  else (List.range o.length).map fun i =>
    (charsetOf o).getD (randoms i % (charsetOf o).length) 'a'

theorem lowercaseChars_ne_nil : lowercaseChars ≠ [] := by decide

theorem uppercaseChars_ne_nil : uppercaseChars ≠ [] := by decide

theorem numberChars_ne_nil : numberChars ≠ [] := by decide

theorem specialChars_ne_nil : specialChars ≠ [] := by decide

theorem charsetOf_eq_nil_iff (o : PasswordOptions) :
    charsetOf o = [] ↔
      o.includeLowercase = false ∧ o.includeUppercase = false ∧
        o.includeNumbers = false ∧ o.includeSpecialChars = false := by
  obtain ⟨len, up, low, num, sp⟩ := o
  cases up <;> cases low <;> cases num <;> cases sp <;>
    simp [charsetOf, lowercaseChars_ne_nil, uppercaseChars_ne_nil,
      numberChars_ne_nil, specialChars_ne_nil]

/-- C9: when at least one character class is selected, `generatePassword`
returns exactly `length` characters, each drawn from the union of the
selected classes; when no class is selected it returns the empty string. -/
theorem generatePassword_correct (randoms : Nat → Nat) (o : PasswordOptions) :
    (o.includeLowercase = false ∧ o.includeUppercase = false ∧
        o.includeNumbers = false ∧ o.includeSpecialChars = false →
      CryptoUtils.generatePassword randoms o = [])
    ∧ (o.includeLowercase = true ∨ o.includeUppercase = true ∨
        o.includeNumbers = true ∨ o.includeSpecialChars = true →
      (CryptoUtils.generatePassword randoms o).length = o.length ∧
        ∀ c ∈ CryptoUtils.generatePassword randoms o, c ∈ charsetOf o) := by
  constructor
  · intro h
    have hc : charsetOf o = [] := (charsetOf_eq_nil_iff o).2 h
    simp [CryptoUtils.generatePassword, hc]
  · intro h
    have hne : charsetOf o ≠ [] := by
      intro hc
      have h4 := (charsetOf_eq_nil_iff o).1 hc
      rcases h with h | h | h | h <;> simp_all
    unfold CryptoUtils.generatePassword
    rw [if_neg hne]
    refine ⟨by simp, ?_⟩
    intro c hc
    rw [List.mem_map] at hc
    obtain ⟨i, _, rfl⟩ := hc
    have hlt : randoms i % (charsetOf o).length < (charsetOf o).length :=
      Nat.mod_lt _ (List.length_pos.mpr hne)
    rw [List.getD_eq_getElem (charsetOf o) 'a' hlt]
    exact List.getElem_mem hlt

/-- Witness for C9: no class selected yields empty; one class selected yields
the requested length. -/
theorem generatePassword_correct_witness :
    CryptoUtils.generatePassword (fun _ => 0) ⟨5, false, false, false, false⟩ = []
    ∧ (CryptoUtils.generatePassword (fun _ => 0) ⟨5, false, true, false, false⟩).length = 5 :=
  ⟨(generatePassword_correct (fun _ => 0) ⟨5, false, false, false, false⟩).1
      ⟨rfl, rfl, rfl, rfl⟩,
    ((generatePassword_correct (fun _ => 0) ⟨5, false, true, false, false⟩).2
      (Or.inl rfl)).1⟩

/-- The sensitive payload encrypted inside a record's envelope:
`{username, password, recoveryEmail, recoveryMobile, twoFactorCodes}`
(all strings in the source; `twoFactorCodes` is a string per
`CredentialForm.tsx`). -/
structure SensitiveData where
  username : Str
  password : Str
  recoveryEmail : Str
  recoveryMobile : Str
  twoFactorCodes : Str
deriving DecidableEq

/-- A `Partial<Credential>` as passed to `updateCredential`: `none` models a
field absent from the partial update (`undefined`). -/
structure CredentialUpdate where
  accountName : Option Str
  username : Option Str
  password : Option Str
  recoveryEmail : Option Str
  recoveryMobile : Option Str
  twoFactorCodes : Option Str
  icon : Option Str
deriving DecidableEq

/-- JavaScript `a || b` for a possibly-undefined string `a`: `undefined` and
the empty string are falsy. -/
def jsOrStr (a : Option Str) (b : Str) : Str :=
  match a with
  | none => b
  | some s => if s = [] then b else s

/-- The merge in `DatabaseService.updateCredential` (`src/utils/database.ts`
lines 90–97): each sensitive field is `credential.field || currentDecrypted.field`. -/
def DatabaseService.mergeData (credential : CredentialUpdate)
    (currentDecrypted : SensitiveData) : SensitiveData where
  username := jsOrStr credential.username currentDecrypted.username
  password := jsOrStr credential.password currentDecrypted.password
  recoveryEmail := jsOrStr credential.recoveryEmail currentDecrypted.recoveryEmail
  recoveryMobile := jsOrStr credential.recoveryMobile currentDecrypted.recoveryMobile
  twoFactorCodes := jsOrStr credential.twoFactorCodes currentDecrypted.twoFactorCodes

/-- The merge in the second `DatabaseService.updateCredential` of
`src/utils/supabase.ts` (lines 339–346): each sensitive field is
`credential.field !== undefined ? credential.field : currentDecrypted.field`. -/
def SupabaseDatabaseService.mergeData (credential : CredentialUpdate)
    (currentDecrypted : SensitiveData) : SensitiveData where
  username := credential.username.getD currentDecrypted.username
  password := credential.password.getD currentDecrypted.password
  recoveryEmail := credential.recoveryEmail.getD currentDecrypted.recoveryEmail
  recoveryMobile := credential.recoveryMobile.getD currentDecrypted.recoveryMobile
  twoFactorCodes := credential.twoFactorCodes.getD currentDecrypted.twoFactorCodes

/-- Core of `DatabaseService.updateCredential` (`src/utils/database.ts`):
fetch the current row's envelope (passed as `currentEncryptedData`), decrypt
it, `JSON.parse` it (the external JSON codec is the abstract `parse` /
`stringify` pair), merge with the partial update, re-encrypt the whole merged
payload under a fresh salt and IV, and store the result as the row's new
`encrypted_data`.  Returns the new envelope, `none` when decrypt or parse
throws. -/
def DatabaseService.updateCredential (lib : CryptoJSLib)
    (parse : Str → Option SensitiveData) (stringify : SensitiveData → Str)
    (salt iv : Str) (currentEncryptedData : Str) (credential : CredentialUpdate)
    (monoPassword : Str) : Option Str :=
  (CryptoUtils.decrypt lib currentEncryptedData monoPassword).bind fun decryptedStr =>
    (parse decryptedStr).map fun currentDecrypted =>
      CryptoUtils.encrypt lib salt iv
        (stringify (DatabaseService.mergeData credential currentDecrypted)) monoPassword

/-- Concrete JSON stand-in used by witnesses: fields joined with `'|'`. -/
def toyStringify (sd : SensitiveData) : Str :=
  sd.username ++ '|' :: (sd.password ++ '|' :: (sd.recoveryEmail ++ '|' ::
    (sd.recoveryMobile ++ '|' :: sd.twoFactorCodes)))

/-- Concrete JSON stand-in used by witnesses: inverse of `toyStringify` on
`'|'`-free fields. -/
def toyParse (s : Str) : Option SensitiveData :=
  match jsSplit s '|' with
  | [u, p, e, m, t] => some ⟨u, p, e, m, t⟩
  | _ => none

/-- C4: a partial update decrypts the stored envelope, merges, and replaces
the whole envelope with a fresh encryption of the merged payload; every
sensitive field absent from the update keeps its previously stored decrypted
value.  Hypotheses: the current envelope decrypts and parses to `cur`, and
the crypto-js/JSON layers invert themselves on the merged payload. -/
theorem updateCredential_preserves_unsupplied (lib : CryptoJSLib)
    (parse : Str → Option SensitiveData) (stringify : SensitiveData → Str)
    (salt iv currentEnc S : Str) (cur : SensitiveData) (upd : CredentialUpdate)
    (hcur : (CryptoUtils.decrypt lib currentEnc S).bind parse = some cur)
    (h1 : ':' ∉ salt) (h2 : ':' ∉ iv)
    (h3 : ':' ∉ lib.aesEncrypt (stringify (DatabaseService.mergeData upd cur))
            (lib.pbkdf2 S salt) iv)
    (hrt : lib.aesDecrypt
            (lib.aesEncrypt (stringify (DatabaseService.mergeData upd cur))
              (lib.pbkdf2 S salt) iv)
            (lib.pbkdf2 S salt) iv
          = some (stringify (DatabaseService.mergeData upd cur)))
    (hps : parse (stringify (DatabaseService.mergeData upd cur))
          = some (DatabaseService.mergeData upd cur)) :
    DatabaseService.updateCredential lib parse stringify salt iv currentEnc upd S
        = some (CryptoUtils.encrypt lib salt iv
            (stringify (DatabaseService.mergeData upd cur)) S)
    ∧ (DatabaseService.updateCredential lib parse stringify salt iv currentEnc upd S).bind
        (fun env => (CryptoUtils.decrypt lib env S).bind parse)
        = some (DatabaseService.mergeData upd cur)
    ∧ (upd.username = none →
        (DatabaseService.mergeData upd cur).username = cur.username)
    ∧ (upd.password = none →
        (DatabaseService.mergeData upd cur).password = cur.password)
    ∧ (upd.recoveryEmail = none →
        (DatabaseService.mergeData upd cur).recoveryEmail = cur.recoveryEmail)
    ∧ (upd.recoveryMobile = none →
        (DatabaseService.mergeData upd cur).recoveryMobile = cur.recoveryMobile)
    ∧ (upd.twoFactorCodes = none →
        (DatabaseService.mergeData upd cur).twoFactorCodes = cur.twoFactorCodes) := by
  obtain ⟨d, hd, hp⟩ := Option.bind_eq_some.mp hcur
  have hmain :
      DatabaseService.updateCredential lib parse stringify salt iv currentEnc upd S
        = some (CryptoUtils.encrypt lib salt iv
            (stringify (DatabaseService.mergeData upd cur)) S) := by
    simp [DatabaseService.updateCredential, hd, hp]
  refine ⟨hmain, ?_, ?_, ?_, ?_, ?_, ?_⟩
  · rw [hmain, Option.bind_eq_some]
    exact ⟨_, rfl, by
      rw [decrypt_encrypt lib _ S salt iv h1 h2 h3 hrt]
      simpa using hps⟩
  all_goals intro h; simp [DatabaseService.mergeData, jsOrStr, h]

def sdW : SensitiveData := ⟨['o'], ['p'], ['e'], ['m'], ['t']⟩

def updW : CredentialUpdate := ⟨none, some ['u'], none, none, none, none, none⟩

def encW : Str := CryptoUtils.encrypt toyLib ['s'] ['i'] (toyStringify sdW) ['k']

/-- Witness for C4 at concrete inputs: only `username` is supplied; the new
envelope is a fresh whole-payload encryption and `password` keeps its stored
value. -/
theorem updateCredential_preserves_unsupplied_witness :
    DatabaseService.updateCredential toyLib toyParse toyStringify ['s'] ['i'] encW updW ['k']
        = some (CryptoUtils.encrypt toyLib ['s'] ['i']
            (toyStringify (DatabaseService.mergeData updW sdW)) ['k'])
    ∧ (DatabaseService.mergeData updW sdW).password = sdW.password :=
  ⟨(updateCredential_preserves_unsupplied toyLib toyParse toyStringify
      ['s'] ['i'] encW ['k'] sdW updW
      (by decide) (by decide) (by decide) (by decide) (by decide) (by decide)).1,
    (updateCredential_preserves_unsupplied toyLib toyParse toyStringify
      ['s'] ['i'] encW ['k'] sdW updW
      (by decide) (by decide) (by decide) (by decide) (by decide) (by decide)).2.2.2.1 rfl⟩

/-- C5 (amended): in the merge of `DatabaseService.updateCredential` in
`src/utils/database.ts`, a sensitive field supplied as the empty string — or
absent, the two being conflated by JS truthiness — keeps the old decrypted
value. -/
theorem merge_falsy_keeps_old (upd : CredentialUpdate) (cur : SensitiveData) :
    ((upd.username = none ∨ upd.username = some []) →
      (DatabaseService.mergeData upd cur).username = cur.username)
    ∧ ((upd.password = none ∨ upd.password = some []) →
      (DatabaseService.mergeData upd cur).password = cur.password)
    ∧ ((upd.recoveryEmail = none ∨ upd.recoveryEmail = some []) →
      (DatabaseService.mergeData upd cur).recoveryEmail = cur.recoveryEmail)
    ∧ ((upd.recoveryMobile = none ∨ upd.recoveryMobile = some []) →
      (DatabaseService.mergeData upd cur).recoveryMobile = cur.recoveryMobile)
    ∧ ((upd.twoFactorCodes = none ∨ upd.twoFactorCodes = some []) →
      (DatabaseService.mergeData upd cur).twoFactorCodes = cur.twoFactorCodes) := by
  refine ⟨?_, ?_, ?_, ?_, ?_⟩ <;>
    (rintro (h | h) <;> simp [DatabaseService.mergeData, jsOrStr, h])

def updEmptyPw : CredentialUpdate := ⟨none, none, some [], none, none, none, none⟩

/-- Witness for C5's amended theorem: a password supplied as the empty string
keeps the stored password under the `database.ts` merge. -/
theorem merge_falsy_keeps_old_witness :
    (DatabaseService.mergeData updEmptyPw sdW).password = sdW.password :=
  (merge_falsy_keeps_old updEmptyPw sdW).2.1 (Or.inr rfl)

/-- C5 counterexample: the update-merge in the second
`DatabaseService.updateCredential` of `src/utils/supabase.ts` (lines 339–346)
checks `!== undefined`, so a password supplied as the empty string CLEARS the
field instead of keeping the stored value, refuting the claim as stated. -/
theorem supabase_merge_empty_string_clears :
    (SupabaseDatabaseService.mergeData updEmptyPw sdW).password = []
    ∧ sdW.password ≠ [] := by
  exact ⟨rfl, by decide⟩

/-- A row of the `credentials` table as returned by the remote store
(snake_case columns). -/
structure EncryptedRow where
  id : Str
  account_name : Str
  encrypted_data : Str
  icon : Str
  created_at : Str
  updated_at : Str
deriving DecidableEq

/-- The decrypted `Credential` value assembled by the list operations. -/
structure Credential where
  id : Str
  accountName : Str
  username : Str
  password : Str
  recoveryEmail : Str
  recoveryMobile : Str
  twoFactorCodes : Str
  icon : Option Str
  createdAt : Str
  updatedAt : Str
deriving DecidableEq

/-- One iteration of the `getCredentials` loop body: decrypt the row's
envelope, `JSON.parse` it and assemble a `Credential`; `none` when the `try`
block throws. -/
def DatabaseService.decodeRow (lib : CryptoJSLib) (parse : Str → Option SensitiveData)
    (monoPassword : Str) (encCred : EncryptedRow) : Option Credential :=
  (CryptoUtils.decrypt lib encCred.encrypted_data monoPassword).bind fun d =>
    (parse d).map fun sd =>
      ⟨encCred.id, encCred.account_name, sd.username, sd.password,
        sd.recoveryEmail, sd.recoveryMobile, sd.twoFactorCodes,
        some encCred.icon, encCred.created_at, encCred.updated_at⟩

/-- The decryption loop of `DatabaseService.getCredentials`
(`src/utils/database.ts` lines 45–68): successfully decoded rows are pushed
in order; a row whose decode throws is reported via
`console.error('Failed to decrypt credential:', encCred.id, ...)` — the
second component collects those ids — and skipped. -/
def DatabaseService.getCredentials (lib : CryptoJSLib)
    (parse : Str → Option SensitiveData) (rows : List EncryptedRow)
    (monoPassword : Str) : List Credential × List Str :=
  match rows with
  | [] => ([], [])
  | encCred :: rest =>
      let acc := DatabaseService.getCredentials lib parse rest monoPassword
      match DatabaseService.decodeRow lib parse monoPassword encCred with
      | some c => (c :: acc.1, acc.2)
      | none => (acc.1, encCred.id :: acc.2)

/-- An entry of the `credentials` array of a local vault file. -/
structure FileCred where
  id : Str
  accountName : Str
  encryptedData : Str
  icon : Option Str
  createdAt : Str
  updatedAt : Str
deriving DecidableEq

/-- One iteration of the `readLocalFile` loop body
(`src/utils/localStorage.ts` lines 120–139). -/
def LocalStorageService.decodeFileCred (lib : CryptoJSLib)
    (parse : Str → Option SensitiveData) (monoPassword : Str)
    (encCred : FileCred) : Option Credential :=
  (CryptoUtils.decrypt lib encCred.encryptedData monoPassword).bind fun d =>
    (parse d).map fun sd =>
      ⟨encCred.id, encCred.accountName, sd.username, sd.password,
        sd.recoveryEmail, sd.recoveryMobile, sd.twoFactorCodes,
        encCred.icon, encCred.createdAt, encCred.updatedAt⟩

/-- The decryption loop of `LocalStorageService.readLocalFile`: corrupted
credentials are logged by id and skipped, the rest pushed in order. -/
def LocalStorageService.readLoop (lib : CryptoJSLib)
    (parse : Str → Option SensitiveData) (monoPassword : Str)
    (creds : List FileCred) : List Credential × List Str :=
  match creds with
  | [] => ([], [])
  | encCred :: rest =>
      let acc := LocalStorageService.readLoop lib parse monoPassword rest
      match LocalStorageService.decodeFileCred lib parse monoPassword encCred with
      | some c => (c :: acc.1, acc.2)
      | none => (acc.1, encCred.id :: acc.2)

/-- C6: both list operations return exactly the successfully decoded records
(in order) and report exactly the ids of the records whose decode failed; a
per-record failure never aborts the listing (every input row is accounted
for: decoded plus reported equals total). -/
theorem list_partial_failure_isolation (lib : CryptoJSLib)
    (parse : Str → Option SensitiveData) (monoPassword : Str)
    (rows : List EncryptedRow) (creds : List FileCred) :
    (DatabaseService.getCredentials lib parse rows monoPassword).1
        = rows.filterMap (DatabaseService.decodeRow lib parse monoPassword)
    ∧ (DatabaseService.getCredentials lib parse rows monoPassword).2
        = (rows.filter fun r =>
            (DatabaseService.decodeRow lib parse monoPassword r).isNone).map EncryptedRow.id
    ∧ (DatabaseService.getCredentials lib parse rows monoPassword).1.length
        + (DatabaseService.getCredentials lib parse rows monoPassword).2.length
        = rows.length
    ∧ (LocalStorageService.readLoop lib parse monoPassword creds).1
        = creds.filterMap (LocalStorageService.decodeFileCred lib parse monoPassword)
    ∧ (LocalStorageService.readLoop lib parse monoPassword creds).2
        = (creds.filter fun c =>
            (LocalStorageService.decodeFileCred lib parse monoPassword c).isNone).map FileCred.id := by
  refine ⟨?_, ?_, ?_, ?_, ?_⟩
  · induction rows with
    | nil => rfl
    | cons r rest ih =>
        cases h : DatabaseService.decodeRow lib parse monoPassword r <;>
          simp [DatabaseService.getCredentials, List.filterMap_cons, h, ih]
  · induction rows with
    | nil => rfl
    | cons r rest ih =>
        cases h : DatabaseService.decodeRow lib parse monoPassword r <;>
          simp [DatabaseService.getCredentials, List.filter_cons, h, ih]
  · induction rows with
    | nil => rfl
    | cons r rest ih =>
        cases h : DatabaseService.decodeRow lib parse monoPassword r <;>
          simp [DatabaseService.getCredentials, h] <;> omega
  · induction creds with
    | nil => rfl
    | cons c rest ih =>
        cases h : LocalStorageService.decodeFileCred lib parse monoPassword c <;>
          simp [LocalStorageService.readLoop, List.filterMap_cons, h, ih]
  · induction creds with
    | nil => rfl
    | cons c rest ih =>
        cases h : LocalStorageService.decodeFileCred lib parse monoPassword c <;>
          simp [LocalStorageService.readLoop, List.filter_cons, h, ih]

/-- Errors surfaced by loading a local vault file: the distinguished
`Invalid MonoKey file format` rethrow versus the generic read/decrypt
failure. -/
inductive LoadError where
  | formatError
  | readError
deriving DecidableEq

/-- The result of `JSON.parse` on a local vault file, before validation:
`version` is `none` when the key is absent (`undefined`); `credentials` is
`none` when absent or not an array (`Array.isArray` fails). -/
structure RawFileData where
  version : Option Str
  credentials : Option (List FileCred)
deriving DecidableEq

def LocalStorageService.FILE_VERSION : Str := "1.0.0".data

/-- `LocalStorageService.readLocalFile(file, monoPassword)`
(`src/utils/localStorage.ts` lines 107–149): validates
`!fileData.version || !fileData.credentials || !Array.isArray(fileData.credentials)`
— rethrown as the format error — then decrypts the credentials one by one,
skipping corrupted entries.  Note the version value is only tested for
truthiness, never compared against `FILE_VERSION`. -/
def LocalStorageService.readLocalFile (lib : CryptoJSLib)
    (parse : Str → Option SensitiveData) (fileData : RawFileData)
    (monoPassword : Str) : Except LoadError (List Credential) :=
  match fileData.version, fileData.credentials with
  | some v, some creds =>
      if v = [] then .error .formatError
      else .ok (LocalStorageService.readLoop lib parse monoPassword creds).1
  | _, _ => .error .formatError

/-- C8 (amended): a local file whose `version` key is absent or empty, or
whose `credentials` key is absent or not an array, fails with the format
error; the conclusion holds for every cipher library, JSON parser and
password, so no record's envelope is ever decrypted first. -/
theorem readLocalFile_format_gate (lib : CryptoJSLib)
    (parse : Str → Option SensitiveData) (fileData : RawFileData)
    (monoPassword : Str)
    (h : fileData.version = none ∨ fileData.version = some []
          ∨ fileData.credentials = none) :
    LocalStorageService.readLocalFile lib parse fileData monoPassword
      = .error .formatError := by
  obtain ⟨v, c⟩ := fileData
  rcases h with h | h | h <;> simp only at h <;> subst h <;>
    first
    | (cases c <;> rfl)
    | (cases v <;> simp [LocalStorageService.readLocalFile])

/-- Witness for C8's amended theorem at a concrete malformed file. -/
theorem readLocalFile_format_gate_witness :
    LocalStorageService.readLocalFile toyLib toyParse ⟨none, some []⟩ ['k']
      = .error .formatError :=
  readLocalFile_format_gate toyLib toyParse ⟨none, some []⟩ ['k'] (Or.inl rfl)

/-- C8 counterexample: a file whose `version` is present but unrecognized
(`"9.9.9"`, distinct from `FILE_VERSION = "1.0.0"`) loads successfully — the
claimed `FormatError` on an unrecognized version is never raised, because the
code only tests the version for truthiness. -/
theorem readLocalFile_unrecognized_version_accepted :
    "9.9.9".data ≠ LocalStorageService.FILE_VERSION
    ∧ LocalStorageService.readLocalFile toyLib toyParse
        ⟨some "9.9.9".data, some []⟩ ['k'] = .ok [] :=
  ⟨by decide, rfl⟩

/-- Modelled from the spec: `verifyFileOwnership` and the ownership-tagged
local-file load are called from `Dashboard.tsx` (`handleFileSelect`,
`loadLocalFile`) but their implementation is not in `src/`; §3 and §4.4 of
the spec define the `ownerTag` as an opaque hash of account id + email,
derivable independently of the master key. -/
def deriveOwnerTag (sha256 : Str → Str) (accountId accountEmail : Str) : Str :=
  sha256 (accountId ++ accountEmail)

/-- A parsed local vault bundle carrying ownership metadata; `ownerLabel` is
the human-readable owner (shown as `fileOwner` by `Dashboard.tsx`) when
derivable from the file. -/
structure OwnedFileData where
  version : Option Str
  ownerTag : Option Str
  ownerLabel : Option Str
  credentials : Option (List FileCred)

/-- Result shape of `verifyFileOwnership` as consumed by
`Dashboard.handleFileSelect`: `{isValid, fileOwner?}`. -/
structure OwnershipCheck where
  isValid : Bool
  fileOwner : Option Str

/-- Modelled from the spec: `LocalStorageService.verifyFileOwnership(file,
userId, userEmail)` compares the file's `ownerTag` with the tag derived from
the requesting account's identity, without touching any envelope. -/
def LocalStorageService.verifyFileOwnership (sha256 : Str → Str)
    (fileData : OwnedFileData) (accountId accountEmail : Str) : OwnershipCheck where
  isValid := decide (fileData.ownerTag = some (deriveOwnerTag sha256 accountId accountEmail))
  fileOwner := fileData.ownerLabel

/-- Errors of the ownership-gated load: `ownershipError` carries the
human-readable owner label when derivable. -/
inductive LoadOwnedError where
  | ownershipError (fileOwner : Option Str)
  | formatError
  | readError
deriving DecidableEq

/-- Modelled from the spec: the ownership-gated local-file load invoked by
`Dashboard.loadLocalFile` — the ownership check runs first and fails fast
with an `OwnershipError` before the format check and before any decrypt
attempt. -/
def LocalStorageService.readLocalFileOwned (sha256 : Str → Str)
    (lib : CryptoJSLib) (parse : Str → Option SensitiveData)
    (fileData : OwnedFileData) (monoPassword accountId accountEmail : Str) :
    Except LoadOwnedError (List Credential) :=
  let check := LocalStorageService.verifyFileOwnership sha256 fileData accountId accountEmail
  if check.isValid = false then .error (.ownershipError check.fileOwner)
  else
    match fileData.version, fileData.credentials with
    | some v, some creds =>
        if v = [] then .error .formatError
        else .ok (LocalStorageService.readLoop lib parse monoPassword creds).1
    | _, _ => .error .formatError

/-- C1: when the file's `ownerTag` does not match the tag derived from the
requesting account's identity, the load fails with an `OwnershipError`
carrying the file owner's label when derivable; the conclusion holds for
every cipher library, JSON parser and password, so no envelope is ever
decrypted on the mismatch path. -/
theorem ownership_gate (sha256 : Str → Str) (lib : CryptoJSLib)
    (parse : Str → Option SensitiveData) (fileData : OwnedFileData)
    (monoPassword accountId accountEmail : Str)
    (h : fileData.ownerTag ≠ some (deriveOwnerTag sha256 accountId accountEmail)) :
    LocalStorageService.readLocalFileOwned sha256 lib parse fileData
        monoPassword accountId accountEmail
      = .error (.ownershipError fileData.ownerLabel) := by
  simp [LocalStorageService.readLocalFileOwned,
    LocalStorageService.verifyFileOwnership, h]

/-- Witness for C1 at a concrete mismatching file. -/
theorem ownership_gate_witness :
    LocalStorageService.readLocalFileOwned (fun s => s) toyLib toyParse
        ⟨some ['1'], some ['x'], some ['o'], some []⟩ ['k'] ['a'] ['b']
      = .error (.ownershipError (some ['o'])) :=
  ownership_gate (fun s => s) toyLib toyParse
    ⟨some ['1'], some ['x'], some ['o'], some []⟩ ['k'] ['a'] ['b'] (by decide)

/-- The fields of the loaded user profile consulted by
`verifyMonoPassword`; `none` models an absent (`undefined`) hash and
`some []` an empty-string hash — both falsy in JS. -/
structure UserProfile where
  monoPasswordHash : Option Str
deriving DecidableEq

/-- `CryptoUtils.compareHash(input, hashed)`:
`CryptoJS.SHA256(input).toString() === hashed`. -/
def CryptoUtils.compareHash (sha256 : Str → Str) (input hashed : Str) : Bool :=
  sha256 input == hashed

/-- `verifyMonoPassword(inputPassword)` from the `AuthContext`
(`src/contexts/AuthContext.tsx`): `if (!user?.monoPasswordHash) return false;`
then `CryptoJS.SHA256(inputPassword).toString() === user.monoPasswordHash`. -/
def AuthContext.verifyMonoPassword (sha256 : Str → Str)
    (user : Option UserProfile) (inputPassword : Str) : Bool :=
  match user with
  | none => false
  | some u =>
      match u.monoPasswordHash with
      | none => false
      | some h => if h = [] then false else sha256 inputPassword == h

/-- C10: with no user loaded, or no (or an empty, hence falsy) stored
master-key hash, no candidate ever verifies; with a stored hash, a candidate
verifies exactly when its SHA-256 digest equals the stored hash — which is
also exactly `CryptoUtils.compareHash`. -/
theorem verifyMonoPassword_correct (sha256 : Str → Str)
    (user : Option UserProfile) (input : Str) :
    (user = none → AuthContext.verifyMonoPassword sha256 user input = false)
    ∧ (∀ u, user = some u →
        (u.monoPasswordHash = none ∨ u.monoPasswordHash = some []) →
        AuthContext.verifyMonoPassword sha256 user input = false)
    ∧ (∀ u h, user = some u → u.monoPasswordHash = some h → h ≠ [] →
        ((AuthContext.verifyMonoPassword sha256 user input = true ↔ sha256 input = h)
          ∧ AuthContext.verifyMonoPassword sha256 user input
              = CryptoUtils.compareHash sha256 input h)) := by
  refine ⟨?_, ?_, ?_⟩
  · rintro rfl; rfl
  · rintro u rfl (hh | hh) <;> simp [AuthContext.verifyMonoPassword, hh]
  · rintro u h rfl hh hne
    simp [AuthContext.verifyMonoPassword, CryptoUtils.compareHash, hh, hne]

/-- Witness for C10: absent hash rejects; a stored hash verifies the matching
candidate (with the identity standing in for SHA-256). -/
theorem verifyMonoPassword_correct_witness :
    AuthContext.verifyMonoPassword (fun s => s) (some ⟨none⟩) ['h'] = false
    ∧ AuthContext.verifyMonoPassword (fun s => s) (some ⟨some ['h']⟩) ['h'] = true :=
  ⟨(verifyMonoPassword_correct (fun s => s) (some ⟨none⟩) ['h']).2.1
      ⟨none⟩ rfl (Or.inl rfl),
    ((verifyMonoPassword_correct (fun s => s) (some ⟨some ['h']⟩) ['h']).2.2
      ⟨some ['h']⟩ ['h'] rfl rfl (by decide)).1.mpr rfl⟩

end Monokey
